import Mathlib

/-!
Verification development for the Sanbitu FC club-management application.

The definitions below are shallow embeddings of the TypeScript source:
  * the `toDate` helper shared by `ManageMatches.tsx` and the news page,
  * the Firestore fan-out deletions `deleteMatch` (`ManageMatches.tsx`)
    and `deletePlayer` (`ManagePlayers.tsx`), modelled as traces of
    backend actions applied to an explicit database state,
  * the create-user submission flow with its admin password
    re-confirmation gate (`CreateUser.tsx`),
  * the `bootstrap-admin` Supabase edge function,
  * the player form submission (`ManagePlayers.tsx`) with JavaScript
    `parseInt` semantics,
  * the match-details lineup sections (filter + comparator sort) and the
    squad page grouping.

Asynchronous effects are modelled as explicit lists of issued operations,
in the order the code awaits them; fallible external calls take their
outcome as a parameter.
-/

namespace SanbituFC

/-! ## JavaScript value and Date model

`toDate` (defined identically in `ManageMatches.tsx` and the news page)
receives an arbitrary Firestore field value.  We model the JavaScript
values it discriminates on: Firestore `Timestamp` instances, strings,
numbers, booleans, `null`, `undefined`, and plain objects.  Object fields
are modelled as numeric-valued (the only use is the `seconds` field).
-/

inductive JSValue where
  | timestamp (seconds : Int) (nanoseconds : Nat)
  | str (s : String)
  | num (n : Int)
  | boolean (b : Bool)
  | nullV
  | undef
  | obj (fields : List (String × Int))
deriving DecidableEq, Repr

/-- A JavaScript `Date`, remembered by how it was constructed:
`new Date(ms)`, `new Date(string)` (possibly an Invalid Date), or
`new Date()` at current time `t`. -/
inductive JSDate where
  | fromMillis (ms : Int)
  | fromString (s : String)
  | now (t : Int)
deriving DecidableEq, Repr

/-- JavaScript truthiness of the modelled values (`null`, `undefined`,
`false`, `0` and `""` are falsy; objects and `Timestamp`s are truthy). -/
def JSValue.truthy : JSValue → Bool
  | .nullV => false
  | .undef => false
  | .boolean b => b
  | .num n => n != 0
  | .str s => s != ""
  | .timestamp _ _ => true
  | .obj _ => true

/-- `typeof value === 'object'` (true for objects, `Timestamp` instances
and, in JavaScript, for `null`). -/
def JSValue.typeofObject : JSValue → Bool
  | .nullV => true
  | .obj _ => true
  | .timestamp _ _ => true
  | _ => false

/-- `'seconds' in value`: the object (or `Timestamp`) has a `seconds`
property. -/
def JSValue.hasSecondsField : JSValue → Bool
  | .obj fields => (fields.lookup "seconds").isSome
  | .timestamp _ _ => true
  | _ => false

/-- The value of the `seconds` property read by
`(value as { seconds: number }).seconds`. -/
def JSValue.secondsField : JSValue → Int
  | .obj fields => (fields.lookup "seconds").getD 0
  | .timestamp s _ => s
  | _ => 0

/-- Firestore `Timestamp.toDate()`: a `Date` at
`seconds * 1000 + nanoseconds / 10^6` milliseconds. -/
def timestampToDate (seconds : Int) (nanoseconds : Nat) : JSDate :=
  .fromMillis (seconds * 1000 + Int.ofNat (nanoseconds / 1000000))

/-- The `toDate` helper of `ManageMatches.tsx` (lines 43–54), identical in
the news page.  `t` is the current time used by the `new Date()`
fallback.  The first two match arms are the `instanceof Timestamp` and
`typeof value === 'string'` guards; the third guard
`value && typeof value === 'object' && 'seconds' in value` is modelled
literally. -/
def toDate (t : Int) (value : JSValue) : JSDate :=
  match value with
  | .timestamp s n => timestampToDate s n
  | .str s => .fromString s
  | v =>
    if v.truthy && v.typeofObject && v.hasSecondsField then
      .fromMillis (v.secondsField * 1000)
    else
      .now t

/-- Modelled from the spec's claim wording, for comparison with `toDate`:
Firestore Timestamps via `toDate()`, strings via the `Date` constructor,
objects with a `seconds` field via `seconds * 1000`, and every other
value falls back to the current date-time. -/
def toDateClaim (t : Int) (value : JSValue) : JSDate :=
  match value with
  | .timestamp s n => timestampToDate s n
  | .str s => .fromString s
  | .obj fields =>
    match fields.lookup "seconds" with
    | some secs => .fromMillis (secs * 1000)
    | none => .now t
  | _ => .now t

/-! ## Domain enumerations (`firestore-types.ts`) -/

/-- `PlayerPosition = 'goalkeeper' | 'defender' | 'midfielder' | 'forward'`. -/
inductive PlayerPosition where
  | goalkeeper
  | defender
  | midfielder
  | forward
deriving DecidableEq, Repr

/-- The string literal a `PlayerPosition` stands for. -/
def PlayerPosition.str : PlayerPosition → String
  | .goalkeeper => "goalkeeper"
  | .defender => "defender"
  | .midfielder => "midfielder"
  | .forward => "forward"

/-- `AppRole = 'admin' | 'player' | 'user'`. -/
inductive AppRole where
  | admin
  | player
  | user
deriving DecidableEq, Repr

/-- `LineupType = 'first_half' | 'second_half' | 'full_time'`. -/
inductive LineupType where
  | first_half
  | second_half
  | full_time
deriving DecidableEq, Repr

/-! ## JavaScript `parseInt` (player form, `ManagePlayers.tsx`)

`handleSubmit` stores `parseInt(jerseyNumber)`.  We model
`parseInt(string)` with no radix argument: strip leading whitespace, an
optional sign, an optional `0x`/`0X` hex prefix, then the longest prefix
of digits of the detected radix; no digits gives `NaN`, modelled as
`none`. -/

/-- JavaScript whitespace accepted by `parseInt` (common cases). -/
def jsWhitespace (c : Char) : Bool :=
  c == ' ' || c == '\t' || c == '\n' || c == '\r'

/-- JavaScript `String.prototype.trim`, modelled on the character
list (whitespace stripped from both ends). -/
def jsTrim (s : String) : String :=
  String.mk (((s.toList.dropWhile jsWhitespace).reverse.dropWhile
    jsWhitespace).reverse)

/-- Value of a decimal digit character. -/
def decDigitVal (c : Char) : Nat := c.toNat - 48

/-- Value of a hexadecimal digit character. -/
def hexDigitVal (c : Char) : Nat :=
  if c.isDigit then c.toNat - 48
  else if 'a' ≤ c && c ≤ 'f' then c.toNat - 97 + 10
  else if 'A' ≤ c && c ≤ 'F' then c.toNat - 65 + 10
  else 0

/-- Is `c` a hexadecimal digit? -/
def isHexDigit (c : Char) : Bool :=
  c.isDigit || ('a' ≤ c && c ≤ 'f') || ('A' ≤ c && c ≤ 'F')

/-- Accumulate a digit list in the given radix. -/
def digitsValue (radix : Nat) (dv : Char → Nat) (ds : List Char) : Nat :=
  ds.foldl (fun acc c => acc * radix + dv c) 0

/-- JavaScript `parseInt(s)` (radix undefined); `none` models `NaN`. -/
def parseIntJS (s : String) : Option Int :=
  let cs := s.toList.dropWhile jsWhitespace
  let signed : Int × List Char :=
    match cs with
    | '-' :: rest => (-1, rest)
    | '+' :: rest => (1, rest)
    | _ => (1, cs)
  match signed.2 with
  | '0' :: 'x' :: rest =>
    let ds := rest.takeWhile isHexDigit
    if ds.isEmpty then none else some (signed.1 * Int.ofNat (digitsValue 16 hexDigitVal ds))
  | '0' :: 'X' :: rest =>
    let ds := rest.takeWhile isHexDigit
    if ds.isEmpty then none else some (signed.1 * Int.ofNat (digitsValue 16 hexDigitVal ds))
  | other =>
    let ds := other.takeWhile Char.isDigit
    if ds.isEmpty then none else some (signed.1 * Int.ofNat (digitsValue 10 decDigitVal ds))

/-! ## Player form submission (`ManagePlayers.tsx` `handleSubmit`) -/

/-- Attributes of an HTML form input element, as written in the JSX. -/
structure InputAttrs where
  typeAttr : String
  minAttr : Option String
  maxAttr : Option String
  required : Bool
deriving DecidableEq, Repr

/-- The jersey-number input of the player dialog:
`<Input id="jerseyNumber" type="number" min="1" max="99" ... required />`. -/
def jerseyNumberInput : InputAttrs :=
  { typeAttr := "number"
    minAttr := some "1"
    maxAttr := some "99"
    required := true }

/-- The controlled form state of the player dialog. -/
structure PlayerFormState where
  fullName : String
  position : PlayerPosition
  jerseyNumber : String
  email : String
deriving DecidableEq, Repr

/-- The document fields written by `handleSubmit` (the `playerData`
object).  `jersey_number` is `parseInt(jerseyNumber)`; `none` models a
stored `NaN`. -/
structure PlayerDocData where
  full_name : String
  position : PlayerPosition
  jersey_number : Option Int
  email : Option String
deriving DecidableEq, Repr

/-- The `playerData` object built by `handleSubmit` (lines 123–141 of
`ManagePlayers.tsx`): names trimmed, jersey number via `parseInt`, empty
trimmed email stored as `null`.  No range validation is performed. -/
def buildPlayerData (f : PlayerFormState) : PlayerDocData :=
  { full_name := jsTrim f.fullName
    position := f.position
    jersey_number := parseIntJS f.jerseyNumber
    email := if jsTrim f.email == "" then none else some (jsTrim f.email) }

/-- The write issued by `handleSubmit`: `updateDoc` on the edited player
when `editingPlayer` is set, otherwise `addDoc` to `players`.  Both
store the same `playerData` payload. -/
inductive PlayerWrite where
  | update (playerId : String) (payload : PlayerDocData)
  | add (payload : PlayerDocData)
deriving DecidableEq, Repr

/-- `handleSubmit`'s choice of write (edit vs. create branch). -/
def handleSubmitPlayerWrite (editingPlayerId : Option String)
    (f : PlayerFormState) : PlayerWrite :=
  match editingPlayerId with
  | some pid => .update pid (buildPlayerData f)
  | none => .add (buildPlayerData f)

/-- The payload a `PlayerWrite` stores. -/
def PlayerWrite.payload : PlayerWrite → PlayerDocData
  | .update _ p => p
  | .add p => p

/-! ## Match-details lineup sections (`MatchDetails` page)

`firstHalfLineup` / `secondHalfLineup` / `fullTimeLineup` filter the
fetched lineups by `lineup_type` and sort each section with the
comparator
`positionOrder.indexOf(a.position_played) - positionOrder.indexOf(b.position_played)`.
JavaScript's `Array.prototype.sort` with a consistent comparator is
modelled as a stable sort by the comparator's non-positivity. -/

/-- A fetched lineup entry (the fields the page's grouping uses). -/
structure LineupEntry where
  id : String
  player_id : String
  lineup_type : LineupType
  position_played : PlayerPosition
deriving DecidableEq, Repr

/-- `const positionOrder = ['goalkeeper', 'defender', 'midfielder', 'forward']`. -/
def positionOrder : List String :=
  ["goalkeeper", "defender", "midfielder", "forward"]

/-- JavaScript `Array.prototype.indexOf`: index of the first occurrence,
`-1` when absent. -/
def jsIndexOf (l : List String) (x : String) : Int :=
  match l.indexOf? x with
  | some i => Int.ofNat i
  | none => -1

/-- The sort key `positionOrder.indexOf(position_played)`. -/
def posIndex (p : PlayerPosition) : Int :=
  jsIndexOf positionOrder p.str

/-- `.sort((a, b) => positionOrder.indexOf(a.position_played) - positionOrder.indexOf(b.position_played))`. -/
def sortByPosition (l : List LineupEntry) : List LineupEntry :=
  l.mergeSort (fun a b => posIndex a.position_played ≤ posIndex b.position_played)

/-- `lineups.filter((l) => l.lineup_type === 'first_half').sort(...)`. -/
def firstHalfLineup (lineups : List LineupEntry) : List LineupEntry :=
  sortByPosition (lineups.filter (fun l => l.lineup_type == .first_half))

/-- `lineups.filter((l) => l.lineup_type === 'second_half').sort(...)`. -/
def secondHalfLineup (lineups : List LineupEntry) : List LineupEntry :=
  sortByPosition (lineups.filter (fun l => l.lineup_type == .second_half))

/-- `lineups.filter((l) => l.lineup_type === 'full_time').sort(...)`. -/
def fullTimeLineup (lineups : List LineupEntry) : List LineupEntry :=
  sortByPosition (lineups.filter (fun l => l.lineup_type == .full_time))

/-! ## Squad page grouping (`Squad` component) -/

/-- A fetched player record (the fields the squad page's grouping uses). -/
structure SquadPlayerRec where
  id : String
  full_name : String
  position : PlayerPosition
  jersey_number : Int
  is_active : Bool
deriving DecidableEq, Repr

/-- `const positionOrder: PlayerPosition[] = ['goalkeeper', 'defender', 'midfielder', 'forward']`. -/
def squadPositionOrder : List PlayerPosition :=
  [.goalkeeper, .defender, .midfielder, .forward]

/-- `groupedPlayers = positionOrder.reduce((acc, position) => { acc[position] = players.filter((p) => p.position === position); return acc; }, {})`,
the accumulated record modelled as an association list in fold order. -/
def groupedPlayers (players : List SquadPlayerRec) :
    List (PlayerPosition × List SquadPlayerRec) :=
  squadPositionOrder.foldl
    (fun acc position =>
      acc ++ [(position, players.filter (fun p => p.position == position))])
    []

/-- The group displayed for a position: `groupedPlayers[position]`. -/
def groupOf (players : List SquadPlayerRec) (position : PlayerPosition) :
    List SquadPlayerRec :=
  ((groupedPlayers players).lookup position).getD []

/-! ## Firestore state and fan-out deletions

`deleteMatch` (`ManageMatches.tsx`) and `deletePlayer`
(`ManagePlayers.tsx`) read snapshots and issue `deleteDoc` calls which
are awaited (`Promise.all`) before a final deletion.  We model the
relevant database state explicitly and each operation as the ordered
trace of deletions it awaits, applied to the state by `runTrace`.

Deleting a Firestore document does not delete its subcollections, so the
`lineups`/`events` subcollections are keyed by match id independently of
the `matches` collection. -/

/-- A document of a `matches/{id}/lineups` subcollection (the field the
fan-out code reads). -/
structure LineupDoc where
  player_id : String
deriving DecidableEq, Repr

/-- A document of a `matches/{id}/events` subcollection (the field the
fan-out code reads). -/
structure EventDoc where
  player_id : String
deriving DecidableEq, Repr

/-- A document of the top-level `players` collection. -/
structure PlayerDoc where
  full_name : String
  position : PlayerPosition
  jersey_number : Int
  is_active : Bool
deriving DecidableEq, Repr

/-- A document of the top-level `matches` collection (fields irrelevant
to the deletions are omitted). -/
structure MatchDoc where
  opponent : String
  is_visible : Bool
deriving DecidableEq, Repr

/-- The database state the two fan-out deletions touch.  Top-level
collections are (id, document) lists; subcollections map a match id to
the (id, document) list of `matches/{id}/lineups` resp.
`matches/{id}/events`. -/
structure FSState where
  players : List (String × PlayerDoc)
  matchesColl : List (String × MatchDoc)
  lineups : String → List (String × LineupDoc)
  events : String → List (String × EventDoc)

/-- A `deleteDoc` call issued by one of the fan-out operations. -/
inductive FSAction where
  | deleteLineup (matchId : String) (docId : String)
  | deleteEvent (matchId : String) (docId : String)
  | deleteMatchDoc (matchId : String)
  | deletePlayerDoc (playerId : String)
deriving DecidableEq, Repr

/-- Effect of one completed `deleteDoc` on the database state. -/
def applyAction (s : FSState) : FSAction → FSState
  | .deleteLineup m d =>
    { s with lineups := fun k =>
        if k = m then (s.lineups k).filter (fun q => q.1 ≠ d) else s.lineups k }
  | .deleteEvent m d =>
    { s with events := fun k =>
        if k = m then (s.events k).filter (fun q => q.1 ≠ d) else s.events k }
  | .deleteMatchDoc m =>
    { s with matchesColl := s.matchesColl.filter (fun p => p.1 ≠ m) }
  | .deletePlayerDoc pid =>
    { s with players := s.players.filter (fun p => p.1 ≠ pid) }

/-- Run a trace of deletions in order. -/
def runTrace (s : FSState) (tr : List FSAction) : FSState :=
  tr.foldl applyAction s

/-- The ordered deletions awaited by `deleteMatch` (lines 233–252 of
`ManageMatches.tsx`): every document of `matches/{m}/lineups` and of
`matches/{m}/events` (all completed by `Promise.all`), and only then the
match document itself. -/
def deleteMatchTrace (s : FSState) (m : String) : List FSAction :=
  (s.lineups m).map (fun d => FSAction.deleteLineup m d.1)
    ++ (s.events m).map (fun d => FSAction.deleteEvent m d.1)
    ++ [FSAction.deleteMatchDoc m]

/-- `deleteMatch`: returns unchanged with no deletions when the match has
no id or the admin does not confirm; otherwise runs the fan-out trace.
Returns the final state and the trace of issued deletions. -/
def deleteMatch (confirmed : Bool) (s : FSState) (matchId : Option String) :
    FSState × List FSAction :=
  match matchId with
  | none => (s, [])
  | some m =>
    if confirmed then
      (runTrace s (deleteMatchTrace s m), deleteMatchTrace s m)
    else
      (s, [])

/-- The cleanup deletions collected by `deletePlayer` (lines 215–240 of
`ManagePlayers.tsx`): for each match of the `matches` collection, the
lineup documents and event documents whose `player_id` equals the
player's id; all completed by `Promise.all` before the player document
is deleted. -/
def deletePlayerTrace (s : FSState) (pid : String) : List FSAction :=
  (s.matchesColl.map (fun me =>
      ((s.lineups me.1).filter (fun d => d.2.player_id == pid)).map
          (fun d => FSAction.deleteLineup me.1 d.1)
        ++ ((s.events me.1).filter (fun d => d.2.player_id == pid)).map
          (fun d => FSAction.deleteEvent me.1 d.1))).flatten
    ++ [FSAction.deletePlayerDoc pid]

/-- `deletePlayer`: returns unchanged with no deletions when the player
has no id or the admin does not confirm; otherwise runs the cleanup
trace followed by the player-document deletion. -/
def deletePlayer (confirmed : Bool) (s : FSState) (playerId : Option String) :
    FSState × List FSAction :=
  match playerId with
  | none => (s, [])
  | some pid =>
    if confirmed then
      (runTrace s (deletePlayerTrace s pid), deletePlayerTrace s pid)
    else
      (s, [])

/-! ## The `bootstrap-admin` edge function
(`supabase/functions/bootstrap-admin/index.ts`)

The handler's external calls are modelled by an environment carrying
their outcomes.  Missing or empty request fields are both falsy in the
`!email || !password || !full_name` check, so a field is modelled as a
`String` with `""` standing for missing/empty.  A request body that is
not valid JSON makes `req.json()` throw into the outer catch. -/

structure BootstrapEnv where
  /-- Number of `user_roles` rows with role `admin` (what the
  `.eq('role', 'admin').limit(1)` select would find). -/
  adminRows : Nat
  /-- The select itself errors. -/
  checkError : Bool
  /-- Parsed request body `(email, password, full_name)`; `none` when
  `req.json()` throws. -/
  body : Option (String × String × String)
  /-- `auth.admin.createUser` error message, `none` on success. -/
  createError : Option String
  /-- The `profiles` insert errors. -/
  profileError : Bool
  /-- The `user_roles` insert errors. -/
  roleError : Bool
deriving DecidableEq, Repr

/-- Response and performed writes of one `bootstrap-admin` request. -/
structure BootstrapResult where
  status : Nat
  errorMsg : Option String
  success : Bool
  /-- The auth user was created. -/
  userCreated : Bool
  /-- A `profiles` row was actually inserted. -/
  profileRowCreated : Bool
  /-- A `user_roles` admin row was actually inserted. -/
  adminRoleRowCreated : Bool
deriving DecidableEq, Repr

/-- A response with the given status and error and no writes. -/
def bootstrapFailure (status : Nat) (msg : String) : BootstrapResult :=
  { status := status
    errorMsg := some msg
    success := false
    userCreated := false
    profileRowCreated := false
    adminRoleRowCreated := false }

/-- The `serve` handler of `bootstrap-admin` (non-OPTIONS request):
check for an existing admin, parse the body, validate the three fields,
create the auth user, then insert the profile row and the admin role row
— whose errors are only logged — and respond 200. -/
def bootstrapAdmin (env : BootstrapEnv) : BootstrapResult :=
  if env.checkError then
    bootstrapFailure 500 "Failed to check existing admins"
  else if 0 < env.adminRows then
    bootstrapFailure 403 "An admin already exists. Use the create-user function instead."
  else
    match env.body with
    | none => bootstrapFailure 500 "Internal server error"
    | some (email, password, full_name) =>
      if email == "" || password == "" || full_name == "" then
        bootstrapFailure 400 "Missing required fields: email, password, full_name"
      else
        match env.createError with
        | some msg => bootstrapFailure 400 msg
        | none =>
          { status := 200
            errorMsg := none
            success := true
            userCreated := true
            profileRowCreated := !env.profileError
            adminRoleRowCreated := !env.roleError }

/-! ## Create-user submission flow (`CreateUser.tsx`)

`handleSubmit` opens the password-confirmation dialog when the selected
role is `admin`, and calls `proceedWithUserCreation` directly otherwise.
The dialog's confirm button runs `verifyCurrentPassword`, which calls
`proceedWithUserCreation` only after `reauthenticateWithCredential`
succeeds.  The composed interaction is modelled as the ordered trace of
the events the flow emits. -/

/-- Controlled form state of the Create User page. -/
structure CreateUserForm where
  email : String
  password : String
  fullName : String
  role : AppRole
deriving DecidableEq, Repr

/-- Environment of one create-user interaction: the signed-in
administrator, the password they type into the confirmation dialog, and
the outcomes of the external calls. -/
structure CreateUserEnv where
  /-- `currentUser.email` of the signed-in administrator (`none` models
  no signed-in user). -/
  currentUserEmail : Option String
  /-- The password entered in the confirmation dialog. -/
  currentPassword : String
  /-- Whether `reauthenticateWithCredential` succeeds. -/
  reauthOk : Bool
  /-- `auth.currentUser.getIdToken()` result. -/
  idToken : Option String
  /-- Whether the `create-user` fetch responds ok. -/
  requestOk : Bool
  /-- Whether the administrator submits the password dialog (rather than
  dismissing it). -/
  submitsDialog : Bool
deriving DecidableEq, Repr

/-- Observable events of the create-user flow, in emission order. -/
inductive AuthEv where
  | openPasswordDialog
  | reauthenticate (email password : String) (ok : Bool)
  | createUserRequest (email password fullName : String) (role : AppRole)
  | toastNote (destructive : Bool)
deriving DecidableEq, Repr

/-- `proceedWithUserCreation`: get the id token (throwing into the catch
when absent), POST the `create-user` function, then toast success or
failure. -/
def proceedWithUserCreation (env : CreateUserEnv) (f : CreateUserForm) :
    List AuthEv :=
  match env.idToken with
  | none => [.toastNote true]
  | some _ =>
    .createUserRequest f.email f.password f.fullName f.role ::
      (if env.requestOk then [.toastNote false] else [.toastNote true])

/-- `verifyCurrentPassword`: error toast when no user is signed in or
the entered password is blank; otherwise reauthenticate with the
administrator's email and the entered password, proceeding with the user
creation only on success. -/
def verifyCurrentPassword (env : CreateUserEnv) (f : CreateUserForm) :
    List AuthEv :=
  match env.currentUserEmail with
  | none => [.toastNote true]
  | some em =>
    if jsTrim env.currentPassword == "" then
      [.toastNote true]
    else
      .reauthenticate em env.currentPassword env.reauthOk ::
        (if env.reauthOk then
          .toastNote false :: proceedWithUserCreation env f
        else
          [.toastNote true])

/-- The create-user interaction started by `handleSubmit`: for role
`admin` the password dialog opens and creation is reachable only through
`verifyCurrentPassword`; for any other role `proceedWithUserCreation`
runs directly. -/
def createUserFlow (env : CreateUserEnv) (f : CreateUserForm) :
    List AuthEv :=
  if f.role = .admin then
    .openPasswordDialog ::
      (if env.submitsDialog then verifyCurrentPassword env f else [])
  else
    proceedWithUserCreation env f

/-! ## Admin match-page operations and their error handling
(`ManageMatches.tsx`)

Each operation is modelled as the ordered list of UI-visible effects it
emits: the backend SDK calls it issues (including a failing attempt) and
the toast notifications it shows.  A thrown backend error is caught at
the call site; the parameterised outcome selects the branch taken. -/

/-- An effect emitted by an admin match-page operation. -/
inductive UIEff where
  | fsAddDoc (path : List String)
  | fsUpdateDoc (path : List String)
  | fsGetDocs (path : List String)
  | fsDeleteDoc (path : List String)
  | toastShown (destructive : Bool) (title : String)
deriving DecidableEq, Repr

/-- Is the effect a backend SDK call (rather than a toast)? -/
def UIEff.isBackend : UIEff → Bool
  | .toastShown _ _ => false
  | _ => true

/-- Is the effect a destructive-variant toast? -/
def UIEff.isDestructiveToast : UIEff → Bool
  | .toastShown true _ => true
  | _ => false

/-- Is the effect a non-destructive toast? -/
def UIEff.isSuccessToast : UIEff → Bool
  | .toastShown false _ => true
  | _ => false

/-- `fetchData`: the two reads refreshing the page after a successful
mutation. -/
def fetchDataEffs : List UIEff :=
  [.fsGetDocs ["matches"], .fsGetDocs ["competitions"]]

/-- `handleSubmit` (schedule a match): `addDoc` to `matches`; on success
a success toast and a refresh, on failure a destructive toast. -/
def scheduleMatchEffs (addFails : Bool) : List UIEff :=
  .fsAddDoc ["matches"] ::
    (if addFails then
      [.toastShown true "Error"]
    else
      .toastShown false "Match Scheduled" :: fetchDataEffs)

/-- `toggleVisibility`: early return without an id; otherwise `updateDoc`
on the match; on success a success toast and a refresh, on failure a
destructive toast. -/
def toggleVisibilityEffs (matchId : Option String) (updateFails : Bool) :
    List UIEff :=
  match matchId with
  | none => []
  | some m =>
    .fsUpdateDoc ["matches", m] ::
      (if updateFails then
        [.toastShown true "Error"]
      else
        .toastShown false "Visibility Updated" :: fetchDataEffs)

/-- Which call of `deleteMatch` fails, if any: the subcollection
snapshot reads, one of the awaited subcollection deletions, or the final
match-document deletion. -/
inductive DeleteMatchOutcome where
  | ok
  | fetchFail
  | subFail
  | finalFail
deriving DecidableEq, Repr

/-- The subcollection deletions issued by `deleteMatch` for the
snapshot's lineup and event document ids (all promises are created
before `Promise.all` awaits them). -/
def subDeleteEffs (m : String) (lineupIds eventIds : List String) :
    List UIEff :=
  lineupIds.map (fun d => UIEff.fsDeleteDoc ["matches", m, "lineups", d])
    ++ eventIds.map (fun d => UIEff.fsDeleteDoc ["matches", m, "events", d])

/-- `deleteMatch` as a UI operation: early return without an id or
without confirmation; otherwise read both subcollections, issue and
await their deletions, delete the match document, toast, refresh.  A
failure at any stage is caught by the single surrounding catch, which
shows one destructive toast and returns. -/
def deleteMatchUIEffs (matchId : Option String) (confirmed : Bool)
    (lineupIds eventIds : List String) (outcome : DeleteMatchOutcome) :
    List UIEff :=
  match matchId with
  | none => []
  | some m =>
    if confirmed then
      UIEff.fsGetDocs ["matches", m, "lineups"] ::
        UIEff.fsGetDocs ["matches", m, "events"] ::
        (match outcome with
        | .fetchFail => [.toastShown true "Error"]
        | .subFail => subDeleteEffs m lineupIds eventIds ++ [.toastShown true "Error"]
        | .finalFail =>
          subDeleteEffs m lineupIds eventIds
            ++ [.fsDeleteDoc ["matches", m], .toastShown true "Error"]
        | .ok =>
          subDeleteEffs m lineupIds eventIds
            ++ [.fsDeleteDoc ["matches", m], .toastShown false "Match Deleted"]
            ++ fetchDataEffs)
    else
      []

/-! ## Theorems -/

/-- C10: the `toDate` helper is total and never throws — for every input
it returns a `Date`, following exactly the case analysis of the claim:
Firestore `Timestamp`s via `toDate()`, strings via the `Date`
constructor, objects with a `seconds` field via `seconds * 1000`, and
every other value (including `null` and `undefined`) falls back to the
current date-time, so a missing `match_date` is displayed as the moment
of rendering. -/
theorem toDate_total_claim_cases :
    (∀ t v, toDate t v = toDateClaim t v)
      ∧ (∀ t, toDate t JSValue.undef = JSDate.now t)
      ∧ (∀ t, toDate t JSValue.nullV = JSDate.now t) := by
  refine ⟨fun t v => ?_, fun t => rfl, fun t => rfl⟩
  cases v with
  | timestamp s n => rfl
  | str s => rfl
  | num n => simp [toDate, toDateClaim, JSValue.typeofObject]
  | boolean b => cases b <;> rfl
  | nullV => rfl
  | undef => rfl
  | obj fields =>
    simp only [toDate, toDateClaim, JSValue.truthy, JSValue.typeofObject,
      JSValue.hasSecondsField, JSValue.secondsField, Bool.true_and]
    cases h : fields.lookup "seconds" <;> simp [h]

/-- C5: the jersey-number range 1–99 appears only in the form input's
`min`/`max` attributes; `handleSubmit` performs no range validation and,
for every entered jersey-number string and both the create and the edit
branch, the stored `jersey_number` is `parseInt` of that string — e.g.
the out-of-range entry `"150"` is stored as `150`. -/
theorem jersey_range_only_in_input_attrs :
    (jerseyNumberInput.minAttr = some "1" ∧ jerseyNumberInput.maxAttr = some "99")
      ∧ (∀ editingPlayerId f,
          (handleSubmitPlayerWrite editingPlayerId f).payload.jersey_number
            = parseIntJS f.jerseyNumber)
      ∧ parseIntJS "150" = some 150
      ∧ (handleSubmitPlayerWrite none
            { fullName := "A", position := .forward, jerseyNumber := "150",
              email := "" }).payload.jersey_number = some 150 := by
  refine ⟨⟨rfl, rfl⟩, fun e f => ?_, by decide, by decide⟩
  cases e <;> rfl

/-- C3: when the admin-existence check itself succeeds, the
`bootstrap-admin` handler (i) responds 403 with the fixed error message
and performs no write at all if a `user_roles` admin row already exists,
(ii) creates the auth user and responds 200 when no admin exists and all
three fields are present (and the auth-user creation succeeds), and
(iii) responds 400 when no admin exists and any of the three fields is
missing. -/
theorem bootstrapAdmin_branches (env : BootstrapEnv)
    (hcheck : env.checkError = false) :
    (0 < env.adminRows →
      bootstrapAdmin env
        = bootstrapFailure 403
            "An admin already exists. Use the create-user function instead.")
      ∧ (env.adminRows = 0 → ∀ e p n, env.body = some (e, p, n) →
          ((e ≠ "" ∧ p ≠ "" ∧ n ≠ "") → env.createError = none →
            (bootstrapAdmin env).status = 200
              ∧ (bootstrapAdmin env).success = true
              ∧ (bootstrapAdmin env).userCreated = true)
          ∧ ((e = "" ∨ p = "" ∨ n = "") →
            (bootstrapAdmin env).status = 400
              ∧ (bootstrapAdmin env).userCreated = false)) := by
  constructor
  · intro hpos
    simp [bootstrapAdmin, hcheck, hpos]
  · intro hzero e p n hbody
    constructor
    · rintro ⟨he, hp, hn⟩ hcreate
      simp [bootstrapAdmin, hcheck, hzero, hbody, he, hp, hn, hcreate]
    · intro hmiss
      have hif : (e == "" || p == "" || n == "") = true := by
        rcases hmiss with h | h | h <;> simp [h]
      simp [bootstrapAdmin, hcheck, hzero, hbody, hif, bootstrapFailure]

/-- Witness for C3: the three branches exercised on concrete requests. -/
theorem bootstrapAdmin_branches_witness :
    bootstrapAdmin
        { adminRows := 1, checkError := false,
          body := some ("a@b.c", "pw", "Ann"), createError := none,
          profileError := false, roleError := false }
      = bootstrapFailure 403
          "An admin already exists. Use the create-user function instead."
      ∧ (bootstrapAdmin
          { adminRows := 0, checkError := false,
            body := some ("a@b.c", "pw", "Ann"), createError := none,
            profileError := false, roleError := false }).status = 200
      ∧ (bootstrapAdmin
          { adminRows := 0, checkError := false,
            body := some ("a@b.c", "", "Ann"), createError := none,
            profileError := false, roleError := false }).status = 400 := by
  refine ⟨?_, ?_, ?_⟩
  · exact (bootstrapAdmin_branches _ rfl).1 (by decide)
  · exact (((bootstrapAdmin_branches _ rfl).2 rfl "a@b.c" "pw" "Ann" rfl).1
      ⟨by decide, by decide, by decide⟩ rfl).1
  · exact (((bootstrapAdmin_branches _ rfl).2 rfl "a@b.c" "" "Ann" rfl).2
      (Or.inr (Or.inl rfl))).1

/-- C9: in `bootstrap-admin`, when the auth user is created but the
profile insert or the admin-role insert fails, the failure is only
logged: the response is still 200 with `success: true`, while the
corresponding row was not created — so a successful response does not
guarantee the profile exists or the admin role was assigned. -/
theorem bootstrapAdmin_success_not_atomic (env : BootstrapEnv)
    (hcheck : env.checkError = false) (hzero : env.adminRows = 0)
    (e p n : String) (hbody : env.body = some (e, p, n))
    (he : e ≠ "") (hp : p ≠ "") (hn : n ≠ "")
    (hcreate : env.createError = none)
    (hfail : env.profileError = true ∨ env.roleError = true) :
    (bootstrapAdmin env).status = 200
      ∧ (bootstrapAdmin env).success = true
      ∧ (bootstrapAdmin env).userCreated = true
      ∧ ¬((bootstrapAdmin env).profileRowCreated = true
            ∧ (bootstrapAdmin env).adminRoleRowCreated = true)
      ∧ (env.profileError = true → (bootstrapAdmin env).profileRowCreated = false)
      ∧ (env.roleError = true → (bootstrapAdmin env).adminRoleRowCreated = false) := by
  simp only [bootstrapAdmin, hcheck, hzero, hbody, hcreate, Bool.false_eq_true,
    if_false, lt_irrefl, if_neg (lt_irrefl 0)]
  have hif : (e == "" || p == "" || n == "") = false := by
    simp [he, hp, hn]
  simp only [hif, Bool.false_eq_true, if_false]
  refine ⟨by trivial, by trivial, by trivial, ?_, ?_, ?_⟩
  · rintro ⟨h1, h2⟩
    rcases hfail with h | h <;> simp [h] at h1 h2
  · intro h; simp [h]
  · intro h; simp [h]

/-- Witness for C9: a run where the profile insert fails still responds
200 / `success: true` without a profile row. -/
theorem bootstrapAdmin_success_not_atomic_witness :
    (bootstrapAdmin
        { adminRows := 0, checkError := false,
          body := some ("a@b.c", "pw", "Ann"), createError := none,
          profileError := true, roleError := false }).status = 200
      ∧ (bootstrapAdmin
          { adminRows := 0, checkError := false,
            body := some ("a@b.c", "pw", "Ann"), createError := none,
            profileError := true, roleError := false }).success = true
      ∧ (bootstrapAdmin
          { adminRows := 0, checkError := false,
            body := some ("a@b.c", "pw", "Ann"), createError := none,
            profileError := true, roleError := false }).profileRowCreated
          = false := by
  have h := bootstrapAdmin_success_not_atomic
    { adminRows := 0, checkError := false,
      body := some ("a@b.c", "pw", "Ann"), createError := none,
      profileError := true, roleError := false }
    rfl rfl "a@b.c" "pw" "Ann" rfl (by decide) (by decide) (by decide) rfl
    (Or.inl rfl)
  exact ⟨h.1, h.2.1, h.2.2.2.2.1 rfl⟩

/-- The comparator sort of the lineup sections is a permutation of its
input. -/
theorem sortByPosition_perm (l : List LineupEntry) :
    (sortByPosition l).Perm l :=
  List.mergeSort_perm l _

/-- The comparator sort of the lineup sections is sorted by the
`positionOrder` index of `position_played`. -/
theorem sortByPosition_sorted (l : List LineupEntry) :
    (sortByPosition l).Pairwise
      (fun a b => posIndex a.position_played ≤ posIndex b.position_played) := by
  refine List.Pairwise.imp ?_ (List.sorted_mergeSort ?_ ?_ l)
  · intro a b h
    simpa using h
  · intro a b c hab hbc
    simp only [decide_eq_true_eq] at hab hbc ⊢
    exact le_trans hab hbc
  · intro a b
    simpa using Int.le_total (posIndex a.position_played) (posIndex b.position_played)

/-- C6: each lineup section of the match-details page contains exactly
the fetched entries of its `lineup_type` (`first_half`, `second_half`,
`full_time` respectively) and is sorted by `position_played` in the
fixed order goalkeeper (0), defender (1), midfielder (2), forward (3). -/
theorem matchDetails_lineup_sections (ls : List LineupEntry) :
    ((firstHalfLineup ls).Perm (ls.filter (fun l => l.lineup_type == .first_half))
      ∧ (∀ x, x ∈ firstHalfLineup ls ↔ x ∈ ls ∧ x.lineup_type = .first_half)
      ∧ (firstHalfLineup ls).Pairwise
          (fun a b => posIndex a.position_played ≤ posIndex b.position_played))
    ∧ ((secondHalfLineup ls).Perm (ls.filter (fun l => l.lineup_type == .second_half))
      ∧ (∀ x, x ∈ secondHalfLineup ls ↔ x ∈ ls ∧ x.lineup_type = .second_half)
      ∧ (secondHalfLineup ls).Pairwise
          (fun a b => posIndex a.position_played ≤ posIndex b.position_played))
    ∧ ((fullTimeLineup ls).Perm (ls.filter (fun l => l.lineup_type == .full_time))
      ∧ (∀ x, x ∈ fullTimeLineup ls ↔ x ∈ ls ∧ x.lineup_type = .full_time)
      ∧ (fullTimeLineup ls).Pairwise
          (fun a b => posIndex a.position_played ≤ posIndex b.position_played))
    ∧ (posIndex .goalkeeper = 0 ∧ posIndex .defender = 1
        ∧ posIndex .midfielder = 2 ∧ posIndex .forward = 3) := by
  refine ⟨⟨sortByPosition_perm _, fun x => ?_, sortByPosition_sorted _⟩,
    ⟨sortByPosition_perm _, fun x => ?_, sortByPosition_sorted _⟩,
    ⟨sortByPosition_perm _, fun x => ?_, sortByPosition_sorted _⟩,
    by decide, by decide, by decide, by decide⟩
  · simp [firstHalfLineup, sortByPosition, List.mem_filter]
  · simp [secondHalfLineup, sortByPosition, List.mem_filter]
  · simp [fullTimeLineup, sortByPosition, List.mem_filter]

/-- The group computed for each position is the corresponding filter of
the fetched player list. -/
theorem groupOf_eq_filter (ps : List SquadPlayerRec) (pos : PlayerPosition) :
    groupOf ps pos = ps.filter (fun p => p.position == pos) := by
  cases pos <;> rfl

/-- C7: the squad page's `groupedPlayers` is a partition of the fetched
player list: each group is exactly the players of its position, every
fetched player lies in precisely the group of their own `position`
field, and the four groups together are a permutation of the fetched
list. -/
theorem squad_grouping_partition (ps : List SquadPlayerRec) :
    (∀ pos, (groupedPlayers ps).lookup pos
        = some (ps.filter (fun p => p.position == pos)))
      ∧ (∀ p ∈ ps, ∀ pos, p ∈ groupOf ps pos ↔ pos = p.position)
      ∧ (groupOf ps .goalkeeper ++ groupOf ps .defender
          ++ groupOf ps .midfielder ++ groupOf ps .forward).Perm ps := by
  refine ⟨fun pos => by cases pos <;> rfl, fun p hp pos => ?_, ?_⟩
  · rw [groupOf_eq_filter]
    simp only [List.mem_filter, beq_iff_eq]
    constructor
    · rintro ⟨-, h⟩
      exact h.symm
    · intro h
      exact ⟨hp, h.symm⟩
  · rw [groupOf_eq_filter, groupOf_eq_filter, groupOf_eq_filter, groupOf_eq_filter]
    rw [List.perm_iff_count]
    intro a
    have hz : ∀ pos : PlayerPosition, a.position ≠ pos →
        (ps.filter (fun p => p.position == pos)).count a = 0 := by
      intro pos hne
      rw [List.count_eq_zero]
      intro hmem
      have := (List.mem_filter.mp hmem).2
      simp only [beq_iff_eq] at this
      exact hne this
    have hc : (ps.filter (fun p => p.position == a.position)).count a
        = ps.count a := List.count_filter (by simp)
    rcases h : a.position with _ | _ | _ | _
    · simp [List.count_append, h ▸ hc, hz .defender (by simp [h]),
        hz .midfielder (by simp [h]), hz .forward (by simp [h])]
    · simp [List.count_append, h ▸ hc, hz .goalkeeper (by simp [h]),
        hz .midfielder (by simp [h]), hz .forward (by simp [h])]
    · simp [List.count_append, h ▸ hc, hz .goalkeeper (by simp [h]),
        hz .defender (by simp [h]), hz .forward (by simp [h])]
    · simp [List.count_append, h ▸ hc, hz .goalkeeper (by simp [h]),
        hz .defender (by simp [h]), hz .midfielder (by simp [h])]

/-- Witness for C7: the partition exercised on a concrete two-player
squad. -/
theorem squad_grouping_partition_witness :
    (({ id := "p1", full_name := "A", position := .defender,
        jersey_number := 4, is_active := true } : SquadPlayerRec)
        ∈ groupOf
          [{ id := "p1", full_name := "A", position := .defender,
             jersey_number := 4, is_active := true },
           { id := "p2", full_name := "B", position := .forward,
             jersey_number := 9, is_active := true }] .defender
      ↔ PlayerPosition.defender = PlayerPosition.defender) := by
  exact (squad_grouping_partition
    [{ id := "p1", full_name := "A", position := .defender,
       jersey_number := 4, is_active := true },
     { id := "p2", full_name := "B", position := .forward,
       jersey_number := 9, is_active := true }]).2.1
    { id := "p1", full_name := "A", position := .defender,
      jersey_number := 4, is_active := true } (by decide) .defender

/-- C2: in the Create User flow, when the selected role is `admin` the
`create-user` request is never issued before a successful
`reauthenticateWithCredential` with the signed-in administrator's email
and the entered current password: any request event in the emitted
trace is strictly preceded by a successful reauthentication event.  For
role `user` or `player` the flow is exactly `proceedWithUserCreation`,
with no reauthentication event at all. -/
theorem createUser_admin_reauth_gate (env : CreateUserEnv)
    (f : CreateUserForm) :
    (f.role = .admin →
      ∀ (i : Nat) (e p n : String) (r : AppRole),
        (createUserFlow env f)[i]?
            = some (AuthEv.createUserRequest e p n r) →
          ∃ (j : Nat) (em : String), j < i ∧ env.currentUserEmail = some em
            ∧ (createUserFlow env f)[j]?
                = some (AuthEv.reauthenticate em env.currentPassword true))
      ∧ ((f.role = .user ∨ f.role = .player) →
          createUserFlow env f = proceedWithUserCreation env f
            ∧ ∀ em pw ok,
                AuthEv.reauthenticate em pw ok ∉ createUserFlow env f) := by
  constructor
  · intro hrole i e p n r hi
    cases hsub : env.submitsDialog with
    | false =>
      simp only [createUserFlow, hrole, if_pos, hsub, Bool.false_eq_true,
        if_false] at hi
      rcases i with _ | i <;> simp at hi
    | true =>
      cases hem : env.currentUserEmail with
      | none =>
        simp only [createUserFlow, verifyCurrentPassword, hrole, if_pos,
          hsub, if_true, hem] at hi
        rcases i with _ | _ | i <;> simp at hi
      | some em =>
        cases htrim : (jsTrim env.currentPassword == "") with
        | true =>
          simp only [createUserFlow, verifyCurrentPassword, hrole, if_pos,
            hsub, if_true, hem, htrim] at hi
          rcases i with _ | _ | i <;> simp at hi
        | false =>
          cases hro : env.reauthOk with
          | false =>
            simp only [createUserFlow, verifyCurrentPassword, hrole, if_pos,
              hsub, if_true, hem, htrim, hro, Bool.false_eq_true, if_false] at hi
            rcases i with _ | _ | _ | i <;> simp at hi
          | true =>
            cases hit : env.idToken with
            | none =>
              simp only [createUserFlow, verifyCurrentPassword,
                proceedWithUserCreation, hrole, if_pos, hsub, if_true, hem,
                htrim, hro, hit, Bool.false_eq_true, if_false, if_true] at hi
              rcases i with _ | _ | _ | _ | i <;> simp at hi
            | some tk =>
              refine ⟨1, em, ?_, rfl, ?_⟩
              · by_contra hlt
                push_neg at hlt
                interval_cases i <;>
                  simp [createUserFlow, verifyCurrentPassword,
                    proceedWithUserCreation, hrole, hsub, hem, htrim, hro,
                    hit] at hi
              · simp [createUserFlow, verifyCurrentPassword, hrole, hsub,
                  hem, htrim, hro]
  · intro hrole
    have hne : ¬(f.role = .admin) := by
      rcases hrole with h | h <;> simp [h]
    constructor
    · rw [createUserFlow, if_neg hne]
    · intro em pw ok
      rw [createUserFlow, if_neg hne, proceedWithUserCreation]
      cases env.idToken <;> cases hreq : env.requestOk <;> simp [hreq]

/-- Witness for C2: a concrete admin submission in which the request
event at index 3 is preceded by the successful reauthentication at
index 1, and a concrete non-admin submission with no reauthentication. -/
theorem createUser_admin_reauth_gate_witness :
    (∃ j em, j < 3 ∧ (some "admin@club.org" : Option String) = some em
      ∧ (createUserFlow
          { currentUserEmail := some "admin@club.org",
            currentPassword := "secret", reauthOk := true,
            idToken := some "tok", requestOk := true, submitsDialog := true }
          { email := "new@club.org", password := "pw", fullName := "New",
            role := .admin })[j]?
          = some (.reauthenticate em "secret" true))
      ∧ ∀ em pw ok,
          AuthEv.reauthenticate em pw ok ∉ createUserFlow
            { currentUserEmail := some "admin@club.org",
              currentPassword := "secret", reauthOk := true,
              idToken := some "tok", requestOk := true, submitsDialog := true }
            { email := "new@club.org", password := "pw", fullName := "New",
              role := .user } := by
  constructor
  · exact (createUser_admin_reauth_gate
      { currentUserEmail := some "admin@club.org", currentPassword := "secret",
        reauthOk := true, idToken := some "tok", requestOk := true,
        submitsDialog := true }
      { email := "new@club.org", password := "pw", fullName := "New",
        role := .admin }).1 rfl 3 "new@club.org" "pw" "New" .admin (by decide)
  · exact (createUser_admin_reauth_gate
      { currentUserEmail := some "admin@club.org", currentPassword := "secret",
        reauthOk := true, idToken := some "tok", requestOk := true,
        submitsDialog := true }
      { email := "new@club.org", password := "pw", fullName := "New",
        role := .user }).2 (Or.inl rfl) |>.2

/-- Every subcollection deletion is a backend `deleteDoc` on a
four-component path (in particular not a toast). -/
theorem subDeleteEffs_shape (m : String) (lids eids : List String) :
    ∀ x ∈ subDeleteEffs m lids eids,
      UIEff.isBackend x = true
        ∧ UIEff.isDestructiveToast x = false
        ∧ UIEff.isSuccessToast x = false
        ∧ ∃ p, x = UIEff.fsDeleteDoc p ∧ p.length = 4 := by
  intro x hx
  rcases List.mem_append.mp hx with h | h <;>
    rcases List.mem_map.mp h with ⟨d, hd, rfl⟩ <;>
    exact ⟨rfl, rfl, rfl, _, rfl, rfl⟩

/-- With distinct snapshot document ids, no subcollection deletion is
issued twice. -/
theorem subDeleteEffs_nodup (m : String) (lids eids : List String)
    (hl : lids.Nodup) (he : eids.Nodup) :
    (subDeleteEffs m lids eids).Nodup := by
  refine List.Nodup.append (hl.map ?_) (he.map ?_) ?_
  · intro a b h
    simpa using h
  · intro a b h
    simpa using h
  · intro x h1 h2
    rcases List.mem_map.mp h1 with ⟨d, hd, rfl⟩
    rcases List.mem_map.mp h2 with ⟨d2, hd2, he2⟩
    simp at he2

/-- C8: for each admin match-page operation (scheduling, toggling
visibility, deleting a match), a failing backend call is caught and
surfaced as exactly one destructive toast, no success toast is shown,
the operation returns normally with the toast as its last effect, and no
backend call is issued twice — there is no retry. -/
theorem manageMatches_failure_handling :
    ((scheduleMatchEffs true).countP UIEff.isDestructiveToast = 1
      ∧ (scheduleMatchEffs true).countP UIEff.isSuccessToast = 0
      ∧ (scheduleMatchEffs true).getLast? = some (UIEff.toastShown true "Error")
      ∧ ((scheduleMatchEffs true).filter UIEff.isBackend).Nodup)
    ∧ (∀ m : String,
        (toggleVisibilityEffs (some m) true).countP UIEff.isDestructiveToast = 1
          ∧ (toggleVisibilityEffs (some m) true).countP UIEff.isSuccessToast = 0
          ∧ (toggleVisibilityEffs (some m) true).getLast?
              = some (UIEff.toastShown true "Error")
          ∧ ((toggleVisibilityEffs (some m) true).filter UIEff.isBackend).Nodup)
    ∧ (∀ (m : String) (lids eids : List String) (outcome : DeleteMatchOutcome),
        outcome ≠ .ok → lids.Nodup → eids.Nodup →
          (deleteMatchUIEffs (some m) true lids eids outcome).countP
              UIEff.isDestructiveToast = 1
            ∧ (deleteMatchUIEffs (some m) true lids eids outcome).countP
                UIEff.isSuccessToast = 0
            ∧ (deleteMatchUIEffs (some m) true lids eids outcome).getLast?
                = some (UIEff.toastShown true "Error")
            ∧ ((deleteMatchUIEffs (some m) true lids eids outcome).filter
                UIEff.isBackend).Nodup) := by
  refine ⟨⟨rfl, rfl, rfl, by decide⟩, fun m => ⟨rfl, rfl, rfl, ?_⟩, ?_⟩
  · simp [toggleVisibilityEffs, UIEff.isBackend]
  · intro m lids eids outcome hout hl he
    have hsub := subDeleteEffs_shape m lids eids
    have hcd : (subDeleteEffs m lids eids).countP UIEff.isDestructiveToast = 0 :=
      List.countP_eq_zero.mpr (fun x hx => by simp [(hsub x hx).2.1])
    have hcs : (subDeleteEffs m lids eids).countP UIEff.isSuccessToast = 0 :=
      List.countP_eq_zero.mpr (fun x hx => by simp [(hsub x hx).2.2.1])
    have hfb : (subDeleteEffs m lids eids).filter UIEff.isBackend
        = subDeleteEffs m lids eids :=
      List.filter_eq_self.mpr (fun x hx => (hsub x hx).1)
    have hnsub := subDeleteEffs_nodup m lids eids hl he
    have hg1 : (UIEff.fsGetDocs ["matches", m, "lineups"])
        ∉ subDeleteEffs m lids eids := fun hx => by
      rcases (hsub _ hx).2.2.2 with ⟨p, hp, -⟩
      simp at hp
    have hg2 : (UIEff.fsGetDocs ["matches", m, "events"])
        ∉ subDeleteEffs m lids eids := fun hx => by
      rcases (hsub _ hx).2.2.2 with ⟨p, hp, -⟩
      simp at hp
    have hfd : (UIEff.fsDeleteDoc ["matches", m])
        ∉ subDeleteEffs m lids eids := fun hx => by
      rcases (hsub _ hx).2.2.2 with ⟨p, hp, hlen⟩
      simp only [UIEff.fsDeleteDoc.injEq] at hp
      rw [← hp] at hlen
      simp at hlen
    cases outcome with
    | ok => exact absurd rfl hout
    | fetchFail =>
      refine ⟨rfl, rfl, rfl, by simp [deleteMatchUIEffs, UIEff.isBackend]⟩
    | subFail =>
      refine ⟨?_, ?_, ?_, ?_⟩
      · simp [deleteMatchUIEffs, List.countP_cons, List.countP_append, hcd,
          UIEff.isDestructiveToast]
      · simp [deleteMatchUIEffs, List.countP_cons, List.countP_append, hcs,
          UIEff.isSuccessToast]
      · show ((UIEff.fsGetDocs ["matches", m, "lineups"] ::
            UIEff.fsGetDocs ["matches", m, "events"] :: subDeleteEffs m lids eids)
            ++ [UIEff.toastShown true "Error"]).getLast?
            = some (UIEff.toastShown true "Error")
        exact List.getLast?_concat _
      · have heq : (deleteMatchUIEffs (some m) true lids eids
              DeleteMatchOutcome.subFail).filter UIEff.isBackend
            = UIEff.fsGetDocs ["matches", m, "lineups"] ::
                UIEff.fsGetDocs ["matches", m, "events"] ::
                subDeleteEffs m lids eids := by
          simp [deleteMatchUIEffs, List.filter_append, hfb, UIEff.isBackend]
        rw [heq]
        refine List.nodup_cons.mpr ⟨?_, List.nodup_cons.mpr ⟨hg2, hnsub⟩⟩
        simp only [List.mem_cons]
        rintro (h | h)
        · simp at h
        · exact hg1 h
    | finalFail =>
      refine ⟨?_, ?_, ?_, ?_⟩
      · simp [deleteMatchUIEffs, List.countP_cons, List.countP_append, hcd,
          UIEff.isDestructiveToast]
      · simp [deleteMatchUIEffs, List.countP_cons, List.countP_append, hcs,
          UIEff.isSuccessToast]
      · show ((UIEff.fsGetDocs ["matches", m, "lineups"] ::
            UIEff.fsGetDocs ["matches", m, "events"] :: subDeleteEffs m lids eids)
            ++ ([UIEff.fsDeleteDoc ["matches", m]]
                ++ [UIEff.toastShown true "Error"])).getLast?
            = some (UIEff.toastShown true "Error")
        rw [← List.append_assoc]
        exact List.getLast?_concat _
      · have heq : (deleteMatchUIEffs (some m) true lids eids
              DeleteMatchOutcome.finalFail).filter UIEff.isBackend
            = UIEff.fsGetDocs ["matches", m, "lineups"] ::
                UIEff.fsGetDocs ["matches", m, "events"] ::
                (subDeleteEffs m lids eids
                  ++ [UIEff.fsDeleteDoc ["matches", m]]) := by
          simp [deleteMatchUIEffs, List.filter_append, hfb, UIEff.isBackend]
        rw [heq]
        have htail : (subDeleteEffs m lids eids
            ++ [UIEff.fsDeleteDoc ["matches", m]]).Nodup := by
          refine List.Nodup.append hnsub (List.nodup_singleton _) ?_
          intro x hx hx2
          simp only [List.mem_singleton] at hx2
          subst hx2
          exact hfd hx
        refine List.nodup_cons.mpr ⟨?_, List.nodup_cons.mpr ⟨?_, htail⟩⟩
        · simp only [List.mem_cons, List.mem_append, List.mem_singleton]
          rintro (h | h | h)
          · simp at h
          · exact hg1 h
          · simp at h
        · simp only [List.mem_append, List.mem_singleton]
          rintro (h | h)
          · exact hg2 h
          · simp at h

/-- Witness for C8: a concrete failing deletion with two lineup
documents and one event document shows one destructive toast, no success
toast, ends on the toast, and issues no backend call twice. -/
theorem manageMatches_failure_handling_witness :
    (deleteMatchUIEffs (some "m1") true ["l1", "l2"] ["e1"]
        DeleteMatchOutcome.finalFail).countP UIEff.isDestructiveToast = 1
      ∧ (deleteMatchUIEffs (some "m1") true ["l1", "l2"] ["e1"]
          DeleteMatchOutcome.finalFail).countP UIEff.isSuccessToast = 0
      ∧ (deleteMatchUIEffs (some "m1") true ["l1", "l2"] ["e1"]
          DeleteMatchOutcome.finalFail).getLast?
          = some (UIEff.toastShown true "Error")
      ∧ ((deleteMatchUIEffs (some "m1") true ["l1", "l2"] ["e1"]
          DeleteMatchOutcome.finalFail).filter UIEff.isBackend).Nodup :=
  manageMatches_failure_handling.2.2 "m1" ["l1", "l2"] ["e1"]
    DeleteMatchOutcome.finalFail (by decide) (by decide) (by decide)

/-- Running any trace of deletions leaves in `matches/{m}/lineups`
exactly the documents no lineup deletion in the trace targets. -/
theorem runTrace_lineups (tr : List FSAction) (s : FSState) (m : String) :
    (runTrace s tr).lineups m
      = (s.lineups m).filter
          (fun q => decide (FSAction.deleteLineup m q.1 ∉ tr)) := by
  induction tr generalizing s with
  | nil => simp [runTrace]
  | cons a tr ih =>
    rw [runTrace, List.foldl_cons,
      show List.foldl applyAction (applyAction s a) tr
        = runTrace (applyAction s a) tr from rfl, ih]
    cases a with
    | deleteLineup m2 d =>
      by_cases hm : m = m2
      · subst hm
        simp only [applyAction, if_pos rfl, ite_true, List.filter_filter]
        refine List.filter_congr fun q hq => ?_
        simp [not_or, FSAction.deleteLineup.injEq, eq_comm, Bool.and_comm]
      · simp only [applyAction, if_neg hm]
        refine List.filter_congr fun q hq => ?_
        simp [not_or, FSAction.deleteLineup.injEq, hm]
    | deleteEvent m2 d =>
      simp only [applyAction]
      refine List.filter_congr fun q hq => ?_
      simp [not_or]
    | deleteMatchDoc m2 =>
      simp only [applyAction]
      refine List.filter_congr fun q hq => ?_
      simp [not_or]
    | deletePlayerDoc p =>
      simp only [applyAction]
      refine List.filter_congr fun q hq => ?_
      simp [not_or]

/-- Running any trace of deletions leaves in `matches/{m}/events`
exactly the documents no event deletion in the trace targets. -/
theorem runTrace_events (tr : List FSAction) (s : FSState) (m : String) :
    (runTrace s tr).events m
      = (s.events m).filter
          (fun q => decide (FSAction.deleteEvent m q.1 ∉ tr)) := by
  induction tr generalizing s with
  | nil => simp [runTrace]
  | cons a tr ih =>
    rw [runTrace, List.foldl_cons,
      show List.foldl applyAction (applyAction s a) tr
        = runTrace (applyAction s a) tr from rfl, ih]
    cases a with
    | deleteEvent m2 d =>
      by_cases hm : m = m2
      · subst hm
        simp only [applyAction, if_pos rfl, ite_true, List.filter_filter]
        refine List.filter_congr fun q hq => ?_
        simp [not_or, FSAction.deleteEvent.injEq, eq_comm, Bool.and_comm]
      · simp only [applyAction, if_neg hm]
        refine List.filter_congr fun q hq => ?_
        simp [not_or, FSAction.deleteEvent.injEq, hm]
    | deleteLineup m2 d =>
      simp only [applyAction]
      refine List.filter_congr fun q hq => ?_
      simp [not_or]
    | deleteMatchDoc m2 =>
      simp only [applyAction]
      refine List.filter_congr fun q hq => ?_
      simp [not_or]
    | deletePlayerDoc p =>
      simp only [applyAction]
      refine List.filter_congr fun q hq => ?_
      simp [not_or]

/-- Running any trace of deletions leaves in the `matches` collection
exactly the documents no match deletion in the trace targets. -/
theorem runTrace_matchesColl (tr : List FSAction) (s : FSState) :
    (runTrace s tr).matchesColl
      = s.matchesColl.filter
          (fun p => decide (FSAction.deleteMatchDoc p.1 ∉ tr)) := by
  induction tr generalizing s with
  | nil => simp [runTrace]
  | cons a tr ih =>
    rw [runTrace, List.foldl_cons,
      show List.foldl applyAction (applyAction s a) tr
        = runTrace (applyAction s a) tr from rfl, ih]
    cases a with
    | deleteMatchDoc m2 =>
      simp only [applyAction, List.filter_filter]
      refine List.filter_congr fun q hq => ?_
      simp [not_or, FSAction.deleteMatchDoc.injEq, eq_comm, Bool.and_comm]
    | deleteLineup m2 d =>
      simp only [applyAction]
      refine List.filter_congr fun q hq => ?_
      simp [not_or]
    | deleteEvent m2 d =>
      simp only [applyAction]
      refine List.filter_congr fun q hq => ?_
      simp [not_or]
    | deletePlayerDoc p =>
      simp only [applyAction]
      refine List.filter_congr fun q hq => ?_
      simp [not_or]

/-- Running any trace of deletions leaves in the `players` collection
exactly the documents no player deletion in the trace targets. -/
theorem runTrace_players (tr : List FSAction) (s : FSState) :
    (runTrace s tr).players
      = s.players.filter
          (fun p => decide (FSAction.deletePlayerDoc p.1 ∉ tr)) := by
  induction tr generalizing s with
  | nil => simp [runTrace]
  | cons a tr ih =>
    rw [runTrace, List.foldl_cons,
      show List.foldl applyAction (applyAction s a) tr
        = runTrace (applyAction s a) tr from rfl, ih]
    cases a with
    | deletePlayerDoc p =>
      simp only [applyAction, List.filter_filter]
      refine List.filter_congr fun q hq => ?_
      simp [not_or, FSAction.deletePlayerDoc.injEq, eq_comm, Bool.and_comm]
    | deleteLineup m2 d =>
      simp only [applyAction]
      refine List.filter_congr fun q hq => ?_
      simp [not_or]
    | deleteEvent m2 d =>
      simp only [applyAction]
      refine List.filter_congr fun q hq => ?_
      simp [not_or]
    | deleteMatchDoc m2 =>
      simp only [applyAction]
      refine List.filter_congr fun q hq => ?_
      simp [not_or]

/-- C1: after admin confirmation, `deleteMatch` first issues a deletion
for every document of `matches/{m}/lineups` and `matches/{m}/events`,
all of which complete before the single match-document deletion that
ends the trace; after a successful run neither the match document nor
any of its lineup or event documents remain. -/
theorem deleteMatch_fanout_then_doc (s : FSState) (m : String) :
    (∃ pre,
        (deleteMatch true s (some m)).2 = pre ++ [FSAction.deleteMatchDoc m]
          ∧ (∀ d ∈ s.lineups m, FSAction.deleteLineup m d.1 ∈ pre)
          ∧ (∀ d ∈ s.events m, FSAction.deleteEvent m d.1 ∈ pre)
          ∧ (∀ a ∈ pre, a ≠ FSAction.deleteMatchDoc m))
      ∧ (∀ md, (m, md) ∉ (deleteMatch true s (some m)).1.matchesColl)
      ∧ (deleteMatch true s (some m)).1.lineups m = []
      ∧ (deleteMatch true s (some m)).1.events m = [] := by
  have htr : (deleteMatch true s (some m)).2 = deleteMatchTrace s m := rfl
  have hst : (deleteMatch true s (some m)).1
      = runTrace s (deleteMatchTrace s m) := rfl
  have hmem : FSAction.deleteMatchDoc m ∈ deleteMatchTrace s m := by
    unfold deleteMatchTrace
    simp
  refine ⟨⟨(s.lineups m).map (fun d => FSAction.deleteLineup m d.1)
      ++ (s.events m).map (fun d => FSAction.deleteEvent m d.1),
      ?_, ?_, ?_, ?_⟩, ?_, ?_, ?_⟩
  · rw [htr]
    unfold deleteMatchTrace
    rw [List.append_assoc]
  · intro d hd
    exact List.mem_append_left _ (List.mem_map_of_mem _ hd)
  · intro d hd
    exact List.mem_append_right _ (List.mem_map_of_mem _ hd)
  · intro a ha
    rcases List.mem_append.mp ha with h | h <;>
      rcases List.mem_map.mp h with ⟨d, -, rfl⟩ <;> simp
  · intro md hmd
    rw [hst, runTrace_matchesColl] at hmd
    have := of_decide_eq_true (List.mem_filter.mp hmd).2
    exact this hmem
  · rw [hst, runTrace_lineups]
    refine List.filter_eq_nil_iff.mpr fun q hq => ?_
    simp only [decide_eq_true_eq, Decidable.not_not]
    unfold deleteMatchTrace
    exact List.mem_append_left _
      (List.mem_append_left _ (List.mem_map_of_mem _ hq))
  · rw [hst, runTrace_events]
    refine List.filter_eq_nil_iff.mpr fun q hq => ?_
    simp only [decide_eq_true_eq, Decidable.not_not]
    unfold deleteMatchTrace
    exact List.mem_append_left _
      (List.mem_append_right _ (List.mem_map_of_mem _ hq))

/-- A lineup deletion occurs in `deletePlayer`'s cleanup trace exactly
for a lineup document, under some match of the collection, whose
`player_id` is the deleted player's. -/
theorem deleteLineup_mem_deletePlayerTrace (s : FSState) (pid m d : String) :
    FSAction.deleteLineup m d ∈ deletePlayerTrace s pid
      ↔ ∃ me, me ∈ s.matchesColl ∧ me.1 = m
          ∧ ∃ q, q ∈ s.lineups m ∧ q.1 = d ∧ q.2.player_id = pid := by
  unfold deletePlayerTrace
  rw [List.mem_append]
  constructor
  · rintro (hx | h)
    · rcases List.mem_flatten.mp hx with ⟨l, hl, hxl⟩
      rcases List.mem_map.mp hl with ⟨me, hme, rfl⟩
      rcases List.mem_append.mp hxl with h | h
      · rcases List.mem_map.mp h with ⟨q, hq, heq⟩
        rcases List.mem_filter.mp hq with ⟨hq1, hq2⟩
        simp only [FSAction.deleteLineup.injEq] at heq
        refine ⟨me, hme, heq.1, q, heq.1 ▸ hq1, heq.2, by simpa using hq2⟩
      · rcases List.mem_map.mp h with ⟨q, hq, heq⟩
        exact absurd heq (by simp)
    · exact absurd h (by simp)
  · rintro ⟨me, hme, rfl, q, hq, rfl, hpid⟩
    refine Or.inl (List.mem_flatten.mpr ⟨_, List.mem_map_of_mem _ hme, ?_⟩)
    exact List.mem_append_left _
      (List.mem_map_of_mem _ (List.mem_filter.mpr ⟨hq, by simp [hpid]⟩))

/-- An event deletion occurs in `deletePlayer`'s cleanup trace exactly
for an event document, under some match of the collection, whose
`player_id` is the deleted player's. -/
theorem deleteEvent_mem_deletePlayerTrace (s : FSState) (pid m d : String) :
    FSAction.deleteEvent m d ∈ deletePlayerTrace s pid
      ↔ ∃ me, me ∈ s.matchesColl ∧ me.1 = m
          ∧ ∃ q, q ∈ s.events m ∧ q.1 = d ∧ q.2.player_id = pid := by
  unfold deletePlayerTrace
  rw [List.mem_append]
  constructor
  · rintro (hx | h)
    · rcases List.mem_flatten.mp hx with ⟨l, hl, hxl⟩
      rcases List.mem_map.mp hl with ⟨me, hme, rfl⟩
      rcases List.mem_append.mp hxl with h | h
      · rcases List.mem_map.mp h with ⟨q, hq, heq⟩
        exact absurd heq (by simp)
      · rcases List.mem_map.mp h with ⟨q, hq, heq⟩
        rcases List.mem_filter.mp hq with ⟨hq1, hq2⟩
        simp only [FSAction.deleteEvent.injEq] at heq
        refine ⟨me, hme, heq.1, q, heq.1 ▸ hq1, heq.2, by simpa using hq2⟩
    · exact absurd h (by simp)
  · rintro ⟨me, hme, rfl, q, hq, rfl, hpid⟩
    refine Or.inl (List.mem_flatten.mpr ⟨_, List.mem_map_of_mem _ hme, ?_⟩)
    exact List.mem_append_right _
      (List.mem_map_of_mem _ (List.mem_filter.mpr ⟨hq, by simp [hpid]⟩))

/-- The only player-document deletion in `deletePlayer`'s trace is the
deleted player's own. -/
theorem deletePlayerDoc_mem_deletePlayerTrace (s : FSState) (pid p : String) :
    FSAction.deletePlayerDoc p ∈ deletePlayerTrace s pid ↔ p = pid := by
  unfold deletePlayerTrace
  rw [List.mem_append]
  constructor
  · rintro (hx | h)
    · rcases List.mem_flatten.mp hx with ⟨l, hl, hxl⟩
      rcases List.mem_map.mp hl with ⟨me, hme, rfl⟩
      rcases List.mem_append.mp hxl with h | h <;>
        rcases List.mem_map.mp h with ⟨q, hq, heq⟩ <;> exact absurd heq (by simp)
    · simpa using h
  · rintro rfl
    exact Or.inr (by simp)

/-- C4: after confirmation, `deletePlayer` deletes exactly the lineup
and event documents of every match of the collection whose `player_id`
is the player's, then deletes the player document; documents of other
players and other player documents are left intact, and the
player-document deletion comes only after the cleanup deletions. -/
theorem deletePlayer_removes_exactly_references (s : FSState) (pid : String)
    (hL : ∀ m, ((s.lineups m).map Prod.fst).Nodup)
    (hE : ∀ m, ((s.events m).map Prod.fst).Nodup) :
    (∀ me ∈ s.matchesColl,
        (deletePlayer true s (some pid)).1.lineups me.1
            = (s.lineups me.1).filter
                (fun d => decide (d.2.player_id ≠ pid))
          ∧ (deletePlayer true s (some pid)).1.events me.1
            = (s.events me.1).filter
                (fun d => decide (d.2.player_id ≠ pid)))
      ∧ (∀ pd, (pid, pd) ∉ (deletePlayer true s (some pid)).1.players)
      ∧ (∀ q ∈ s.players, q.1 ≠ pid →
          q ∈ (deletePlayer true s (some pid)).1.players)
      ∧ (∃ pre, (deletePlayer true s (some pid)).2
            = pre ++ [FSAction.deletePlayerDoc pid]
          ∧ ∀ a ∈ pre, (∃ mm dd, a = FSAction.deleteLineup mm dd)
              ∨ ∃ mm dd, a = FSAction.deleteEvent mm dd) := by
  have hst : (deletePlayer true s (some pid)).1
      = runTrace s (deletePlayerTrace s pid) := rfl
  refine ⟨fun me hme => ⟨?_, ?_⟩, ?_, ?_, ?_⟩
  · rw [hst, runTrace_lineups]
    refine List.filter_congr fun q hq => ?_
    rw [decide_eq_decide]
    refine not_congr ?_
    rw [deleteLineup_mem_deletePlayerTrace]
    constructor
    · rintro ⟨me2, hme2, hm2, q2, hq2, hqd, hqp⟩
      have hqq : q2 = q := List.inj_on_of_nodup_map (hL me.1) hq2 hq hqd
      rw [hqq] at hqp
      exact hqp
    · intro hp
      exact ⟨me, hme, rfl, q, hq, rfl, hp⟩
  · rw [hst, runTrace_events]
    refine List.filter_congr fun q hq => ?_
    rw [decide_eq_decide]
    refine not_congr ?_
    rw [deleteEvent_mem_deletePlayerTrace]
    constructor
    · rintro ⟨me2, hme2, hm2, q2, hq2, hqd, hqp⟩
      have hqq : q2 = q := List.inj_on_of_nodup_map (hE me.1) hq2 hq hqd
      rw [hqq] at hqp
      exact hqp
    · intro hp
      exact ⟨me, hme, rfl, q, hq, rfl, hp⟩
  · intro pd h
    rw [hst, runTrace_players] at h
    have h2 := of_decide_eq_true (List.mem_filter.mp h).2
    exact h2 ((deletePlayerDoc_mem_deletePlayerTrace s pid pid).mpr rfl)
  · intro q hq hne
    rw [hst, runTrace_players]
    refine List.mem_filter.mpr ⟨hq, decide_eq_true ?_⟩
    intro hmem
    exact hne ((deletePlayerDoc_mem_deletePlayerTrace s pid q.1).mp hmem)
  · refine ⟨(s.matchesColl.map (fun me : String × MatchDoc =>
        ((s.lineups me.1).filter (fun d => d.2.player_id == pid)).map
            (fun d => FSAction.deleteLineup me.1 d.1)
          ++ ((s.events me.1).filter (fun d => d.2.player_id == pid)).map
            (fun d => FSAction.deleteEvent me.1 d.1))).flatten, rfl, ?_⟩
    intro a ha
    rcases List.mem_flatten.mp ha with ⟨l, hl, hal⟩
    rcases List.mem_map.mp hl with ⟨me, hme, rfl⟩
    rcases List.mem_append.mp hal with h | h <;>
      rcases List.mem_map.mp h with ⟨q, hq, rfl⟩
    · exact Or.inl ⟨me.1, q.1, rfl⟩
    · exact Or.inr ⟨me.1, q.1, rfl⟩

/-- Witness for C4: on a concrete database with one match, two lineup
documents and one event document, deleting player `p1` removes `p1`'s
player document while `p2`'s player document survives. -/
theorem deletePlayer_removes_exactly_references_witness :
    ("p1", PlayerDoc.mk "Ann" .defender 4 true)
        ∉ (deletePlayer true
            { players := [("p1", PlayerDoc.mk "Ann" .defender 4 true),
                          ("p2", PlayerDoc.mk "Bob" .forward 9 true)]
              matchesColl := [("m1", MatchDoc.mk "Rivals" true)]
              lineups := fun m => if m = "m1"
                then [("ld1", LineupDoc.mk "p1"), ("ld2", LineupDoc.mk "p2")]
                else []
              events := fun m => if m = "m1"
                then [("ev1", EventDoc.mk "p1")]
                else [] }
            (some "p1")).1.players
      ∧ ("p2", PlayerDoc.mk "Bob" .forward 9 true)
          ∈ (deletePlayer true
              { players := [("p1", PlayerDoc.mk "Ann" .defender 4 true),
                            ("p2", PlayerDoc.mk "Bob" .forward 9 true)]
                matchesColl := [("m1", MatchDoc.mk "Rivals" true)]
                lineups := fun m => if m = "m1"
                  then [("ld1", LineupDoc.mk "p1"), ("ld2", LineupDoc.mk "p2")]
                  else []
                events := fun m => if m = "m1"
                  then [("ev1", EventDoc.mk "p1")]
                  else [] }
              (some "p1")).1.players := by
  have h := deletePlayer_removes_exactly_references
    { players := [("p1", PlayerDoc.mk "Ann" .defender 4 true),
                  ("p2", PlayerDoc.mk "Bob" .forward 9 true)]
      matchesColl := [("m1", MatchDoc.mk "Rivals" true)]
      lineups := fun m => if m = "m1"
        then [("ld1", LineupDoc.mk "p1"), ("ld2", LineupDoc.mk "p2")]
        else []
      events := fun m => if m = "m1"
        then [("ev1", EventDoc.mk "p1")]
        else [] }
    "p1"
    (by intro m; by_cases hm : m = "m1" <;> simp [hm])
    (by intro m; by_cases hm : m = "m1" <;> simp [hm])
  exact ⟨h.2.1 _, h.2.2.1 _ (by simp) (by simp)⟩

end SanbituFC
